import Mathlib

/-!
Shallow embedding of `src/tools/system_monitor.py` (class `SystemMonitor`)
and proofs about it.

Python floats are modelled as `ℚ` (the byte counts, percentages and the
divisions by 1024 appearing in the claims are exact in binary64 for the
magnitudes involved); Python `round(x, 1)` and the `.1f`/`.0f` format
specifiers round half-to-even, modelled by `roundHalfEvenZ`.
-/

namespace SystemMonitor

/-- Round a rational to the nearest integer, ties going to the even integer
(the rounding used by Python `round` and by the `.1f` / `.0f` format
specifiers on exact values). -/
def roundHalfEvenZ (x : ℚ) : ℤ :=
  let f := ⌊x⌋
  let r := x - (f : ℚ)
  if r < 1 / 2 then f
  else if 1 / 2 < r then f + 1
  else if f % 2 = 0 then f else f + 1

/-- Python `round(x, 1)` on an exact value: round to the nearest tenth,
ties to even tenths. -/
def roundTenths (x : ℚ) : ℚ :=
  (roundHalfEvenZ (10 * x) : ℚ) / 10

/-- Rendering of a nonnegative value by the Python format specifier
`:.1f` (one decimal digit). Only used on nonnegative quantities. -/
def renderOneDecimal (x : ℚ) : String :=
  let t := (roundHalfEvenZ (10 * x)).toNat
  toString (t / 10) ++ "." ++ toString (t % 10)

/-- Rendering by the Python format specifier `:.0f` (no decimals). -/
def renderZeroDecimal (x : ℚ) : String :=
  toString (roundHalfEvenZ x).toNat

/-- The unit list iterated by `format_bytes` (`'PB'` is the fall-through
after the loop, not a list element, exactly as in the source). -/
def byte_units : List String := ["B", "KB", "MB", "GB", "TB"]

/-- The loop of `SystemMonitor.format_bytes`: walk the unit list, dividing
by 1024 until the value drops below 1024; return the final value and the
chosen unit (falling through to `"PB"` after the list is exhausted). -/
def format_bytes_core : ℚ → List String → ℚ × String
  | v, [] => (v, "PB")
  | v, u :: us => if v < 1024 then (v, u) else format_bytes_core (v / 1024) us

/-- `SystemMonitor.format_bytes`. -/
def format_bytes (v : ℚ) : String :=
  let p := format_bytes_core v byte_units
  renderOneDecimal p.1 ++ " " ++ p.2

/-- Modelled from the spec (§4.4 ByteFormatter), for comparison with
`format_bytes`: the unit sequence B…PB. -/
def byte_units_spec : List String := ["B", "KB", "MB", "GB", "TB", "PB"]

/-- Modelled from the spec (§4.4 ByteFormatter): the index of the first
unit at which the remaining value is below 1024 (equivalently the first
`k` with `v < 1024 ^ (k+1)`), or PB (index 5) regardless. -/
def spec_unit_index (v : ℚ) : ℕ :=
  if v < 1024 then 0
  else if v < 1024 ^ 2 then 1
  else if v < 1024 ^ 3 then 2
  else if v < 1024 ^ 4 then 3
  else if v < 1024 ^ 5 then 4
  else 5

/-- Modelled from the spec (§4.4 ByteFormatter): divide by 1024 once per
unit step, render with one decimal place at the chosen unit. -/
def format_bytes_spec (v : ℚ) : String :=
  let k := spec_unit_index v
  renderOneDecimal (v / 1024 ^ k) ++ " " ++ byte_units_spec.getD k "PB"

/-- Rank of a unit label in the B…PB sequence (anything unexpected maps
to the top, but only the six labels occur). -/
def unitRank (u : String) : ℕ :=
  if u = "B" then 0
  else if u = "KB" then 1
  else if u = "MB" then 2
  else if u = "GB" then 3
  else if u = "TB" then 4
  else 5

lemma format_bytes_core_step (v : ℚ) (u : String) (us : List String) (h : ¬ v < 1024) :
    format_bytes_core v (u :: us) = format_bytes_core (v / 1024) us := by
  simp [format_bytes_core, h]

lemma format_bytes_core_stop (v : ℚ) (u : String) (us : List String) (h : v < 1024) :
    format_bytes_core v (u :: us) = (v, u) := by
  simp [format_bytes_core, h]

lemma format_bytes_core_eq (v : ℚ) :
    format_bytes_core v byte_units
      = (v / 1024 ^ spec_unit_index v, byte_units_spec.getD (spec_unit_index v) "PB") := by
  have h1024 : (0 : ℚ) < 1024 := by norm_num
  have key : ∀ (w : ℚ) (k : ℕ), w / 1024 ^ k < 1024 ↔ w < 1024 ^ (k + 1) := by
    intro w k
    rw [div_lt_iff₀ (pow_pos h1024 k)]
    constructor
    · intro h
      calc w < 1024 * 1024 ^ k := h
      _ = 1024 ^ (k + 1) := by rw [pow_succ, mul_comm]
    · intro h
      calc w < 1024 ^ (k + 1) := h
      _ = 1024 * 1024 ^ k := by rw [pow_succ, mul_comm]
  have e1 : v / 1024 = v / 1024 ^ 1 := by norm_num
  have e2 : v / 1024 / 1024 = v / 1024 ^ 2 := by rw [div_div]; norm_num
  have e3 : v / 1024 / 1024 / 1024 = v / 1024 ^ 3 := by rw [div_div, div_div]; norm_num
  have e4 : v / 1024 / 1024 / 1024 / 1024 = v / 1024 ^ 4 := by
    rw [div_div, div_div, div_div]; norm_num
  have e5 : v / 1024 / 1024 / 1024 / 1024 / 1024 = v / 1024 ^ 5 := by
    rw [div_div, div_div, div_div, div_div]; norm_num
  by_cases h0 : v < 1024
  · have hk : spec_unit_index v = 0 := by simp [spec_unit_index, h0]
    rw [hk]
    show format_bytes_core v ("B" :: ["KB", "MB", "GB", "TB"]) = (v / 1024 ^ 0, "B")
    rw [format_bytes_core_stop v _ _ h0]
    norm_num
  · by_cases h1 : v < 1024 ^ 2
    · have c1 : v / 1024 < 1024 := by rw [e1, key]; exact h1
      have hk : spec_unit_index v = 1 := by simp [spec_unit_index, h0, h1]
      rw [hk]
      show format_bytes_core v ("B" :: "KB" :: ["MB", "GB", "TB"]) = (v / 1024 ^ 1, "KB")
      rw [format_bytes_core_step v _ _ h0, format_bytes_core_stop _ _ _ c1, e1]
    · have c1 : ¬ v / 1024 < 1024 := by rw [e1, key]; exact h1
      by_cases h2 : v < 1024 ^ 3
      · have c2 : v / 1024 / 1024 < 1024 := by rw [e2, key]; exact h2
        have hk : spec_unit_index v = 2 := by simp [spec_unit_index, h0, h1, h2]
        rw [hk]
        show format_bytes_core v ("B" :: "KB" :: "MB" :: ["GB", "TB"]) = (v / 1024 ^ 2, "MB")
        rw [format_bytes_core_step v _ _ h0, format_bytes_core_step _ _ _ c1,
          format_bytes_core_stop _ _ _ c2, e2]
      · have c2 : ¬ v / 1024 / 1024 < 1024 := by rw [e2, key]; exact h2
        by_cases h3 : v < 1024 ^ 4
        · have c3 : v / 1024 / 1024 / 1024 < 1024 := by rw [e3, key]; exact h3
          have hk : spec_unit_index v = 3 := by simp [spec_unit_index, h0, h1, h2, h3]
          rw [hk]
          show format_bytes_core v ("B" :: "KB" :: "MB" :: "GB" :: ["TB"]) = (v / 1024 ^ 3, "GB")
          rw [format_bytes_core_step v _ _ h0, format_bytes_core_step _ _ _ c1,
            format_bytes_core_step _ _ _ c2, format_bytes_core_stop _ _ _ c3, e3]
        · have c3 : ¬ v / 1024 / 1024 / 1024 < 1024 := by rw [e3, key]; exact h3
          by_cases h4 : v < 1024 ^ 5
          · have c4 : v / 1024 / 1024 / 1024 / 1024 < 1024 := by rw [e4, key]; exact h4
            have hk : spec_unit_index v = 4 := by simp [spec_unit_index, h0, h1, h2, h3, h4]
            rw [hk]
            show format_bytes_core v ("B" :: "KB" :: "MB" :: "GB" :: "TB" :: [])
              = (v / 1024 ^ 4, "TB")
            rw [format_bytes_core_step v _ _ h0, format_bytes_core_step _ _ _ c1,
              format_bytes_core_step _ _ _ c2, format_bytes_core_step _ _ _ c3,
              format_bytes_core_stop _ _ _ c4, e4]
          · have c4 : ¬ v / 1024 / 1024 / 1024 / 1024 < 1024 := by rw [e4, key]; exact h4
            have hk : spec_unit_index v = 5 := by simp [spec_unit_index, h0, h1, h2, h3, h4]
            rw [hk]
            show format_bytes_core v ("B" :: "KB" :: "MB" :: "GB" :: "TB" :: [])
              = (v / 1024 ^ 5, "PB")
            rw [format_bytes_core_step v _ _ h0, format_bytes_core_step _ _ _ c1,
              format_bytes_core_step _ _ _ c2, format_bytes_core_step _ _ _ c3,
              format_bytes_core_step _ _ _ c4]
            show (v / 1024 / 1024 / 1024 / 1024 / 1024, "PB") = (v / 1024 ^ 5, "PB")
            rw [e5]

lemma spec_unit_index_mono {a b : ℚ} (hab : a ≤ b) :
    spec_unit_index a ≤ spec_unit_index b := by
  unfold spec_unit_index
  split_ifs <;> first | omega | (exfalso; linarith)

lemma unitRank_getD (v : ℚ) :
    unitRank (byte_units_spec.getD (spec_unit_index v) "PB") = spec_unit_index v := by
  unfold spec_unit_index
  split_ifs <;> rfl

/-- C4: the byte formatter satisfies the reference definition: repeated
division by 1024 through B, KB, MB, GB, TB, PB, stopping at the first unit
whose value is below 1024 (or at PB), rendered with one decimal place;
in particular `format_bytes 0 = "0.0 B"`, `format_bytes 1536 = "1.5 KB"`
and `format_bytes 1073741824 = "1.0 GB"`. -/
theorem C4_format_bytes_matches_reference :
    (∀ v : ℚ, format_bytes v = format_bytes_spec v)
    ∧ format_bytes 0 = "0.0 B"
    ∧ format_bytes 1536 = "1.5 KB"
    ∧ format_bytes 1073741824 = "1.0 GB" := by
  refine ⟨fun v => ?_, ?_, ?_, ?_⟩
  · show renderOneDecimal (format_bytes_core v byte_units).1 ++ " "
        ++ (format_bytes_core v byte_units).2
      = renderOneDecimal (v / 1024 ^ spec_unit_index v) ++ " "
        ++ byte_units_spec.getD (spec_unit_index v) "PB"
    rw [format_bytes_core_eq]
  · norm_num [format_bytes, byte_units, format_bytes_core, renderOneDecimal, roundHalfEvenZ]
    rfl
  · norm_num [format_bytes, byte_units, format_bytes_core, renderOneDecimal, roundHalfEvenZ]
    rfl
  · norm_num [format_bytes, byte_units, format_bytes_core, renderOneDecimal, roundHalfEvenZ]
    rfl

/-- C5: the byte formatter is monotone in its unit: for nonnegative inputs
`a ≤ b`, the unit chosen for `b` is never earlier in the B…PB sequence than
the unit chosen for `a`. -/
theorem C5_format_bytes_unit_monotone (a b : ℚ) (_ha : 0 ≤ a) (hab : a ≤ b) :
    unitRank (format_bytes_core a byte_units).2
      ≤ unitRank (format_bytes_core b byte_units).2 := by
  have hb2 := format_bytes_core_eq b
  have ha2 := format_bytes_core_eq a
  rw [ha2, hb2]
  show unitRank (byte_units_spec.getD (spec_unit_index a) "PB")
    ≤ unitRank (byte_units_spec.getD (spec_unit_index b) "PB")
  rw [unitRank_getD, unitRank_getD]
  exact spec_unit_index_mono hab

/-- Witness for C5 at the concrete pair 0 ≤ 2048. -/
theorem C5_format_bytes_unit_monotone_witness :
    unitRank (format_bytes_core 0 byte_units).2
      ≤ unitRank (format_bytes_core 2048 byte_units).2 :=
  C5_format_bytes_unit_monotone 0 2048 (by norm_num) (by norm_num)

/-- Python `s.endswith(suffix)`, on the character sequence. -/
def py_endswith (s suffix : String) : Bool :=
  suffix.data.isSuffixOf s.data

/-- Python `s.lower()` (ASCII case folding, which covers every name the
denylist test can match). -/
def py_lower (s : String) : String :=
  String.mk (s.data.map Char.toLower)

/-- Raw per-process facts read in the second pass of `get_top_processes`:
`proc.info['pid']`, `proc.info['name']`, `proc.info['cpu_percent']` (the
psutil percent, relative to one core) and `proc.info['memory_info'].rss`. -/
structure RawProc where
  pid : ℕ
  name : String
  cpu_percent : ℚ
  rss_bytes : ℚ
deriving Repr, DecidableEq

/-- One iteration of the process loop: a successful read; a skipped
process (`NoSuchProcess` / `AccessDenied` / `ZombieProcess`, handled by
`continue`); or any other exception, which escapes the loop to the outer
`except Exception` handler of `get_top_processes`. -/
inductive ProcIterResult where
  | ok (r : RawProc)
  | skip
  | fatal
deriving Repr, DecidableEq

/-- The fixed denylist compared against the lower-cased display name. -/
def system_denylist : List String :=
  ["system", "system idle process", "system interrupts"]

/-- The namedtuple `ProcessInfo`. -/
structure ProcessInfo where
  name : String
  cpu_percent : ℚ
  memory_mb : ℚ
  pid : ℕ
deriving Repr, DecidableEq

/-- The display name computed in the loop: the raw name with one trailing
`.exe` stripped (`name[:-4]`). -/
def display_name (r : RawProc) : String :=
  if py_endswith r.name ".exe" then r.name.dropRight 4 else r.name

/-- Body of the second-pass loop of `get_top_processes` for one process:
strip a trailing `.exe` from the name, convert rss bytes to MB, divide the
psutil percent by `psutil.cpu_count()`, skip denylisted names, round both
quantities to one decimal place. -/
def make_process_info (cores : ℚ) (r : RawProc) : Option ProcessInfo :=
  let name := display_name r
  let memory_mb := r.rss_bytes / 1024 / 1024
  let cpu_percent := r.cpu_percent / cores
  if py_lower name ∈ system_denylist then none
  else some { name := name, cpu_percent := roundTenths cpu_percent,
              memory_mb := roundTenths memory_mb, pid := r.pid }

/-- The comparison performed by `processes.sort(key=lambda x:
x.cpu_percent, reverse=True)`: `a` may precede `b` iff `a.cpu_percent ≥
b.cpu_percent`. Python's sort is stable, modelled by `List.mergeSort`. -/
def cpu_desc (a b : ProcessInfo) : Bool :=
  decide (b.cpu_percent ≤ a.cpu_percent)

/-- The `processes` list accumulated by the second pass (before sorting
and truncation). -/
def collected_processes (cores : ℚ) (procs : List ProcIterResult) : List ProcessInfo :=
  procs.filterMap fun pr =>
    match pr with
    | .ok r => make_process_info cores r
    | .skip => none
    | .fatal => none

/-- `SystemMonitor.get_top_processes`: empty without psutil; empty when
any collection-time exception other than the three skipped ones occurs
(the outer handler prints a warning and returns `[]`); otherwise the
collected entries sorted by cpu descending and truncated to `limit`. -/
def get_top_processes (hasPsutil : Bool) (cores : ℚ) (procs : List ProcIterResult)
    (limit : ℕ) : List ProcessInfo :=
  if !hasPsutil then []
  else if procs.any fun pr => decide (pr = .fatal) then []
  else ((collected_processes cores procs).mergeSort cpu_desc).take limit

/-- What `SystemMonitor.display_processes` shows: the top rows and, unless
the early `return` for an empty list fires, the totals line. -/
structure DisplayedProcesses where
  top : List ProcessInfo
  totals : Option (ℚ × ℚ)
deriving Repr, DecidableEq

/-- `SystemMonitor.display_processes`: sort the argument in place, show
the first 10 rows, then total cpu and memory over the whole (sorted)
argument list. -/
def display_processes (processes : List ProcessInfo) : DisplayedProcesses :=
  let sorted := processes.mergeSort cpu_desc
  let top_processes := sorted.take 10
  if top_processes.isEmpty then { top := top_processes, totals := none }
  else
    { top := top_processes
      totals := some ((sorted.map ProcessInfo.cpu_percent).sum,
        (sorted.map ProcessInfo.memory_mb).sum) }

lemma cpu_desc_trans (a b c : ProcessInfo)
    (h1 : cpu_desc a b = true) (h2 : cpu_desc b c = true) : cpu_desc a c = true := by
  simp only [cpu_desc, decide_eq_true_eq] at *
  exact le_trans h2 h1

lemma cpu_desc_total (a b : ProcessInfo) : (cpu_desc a b || cpu_desc b a) = true := by
  simp only [cpu_desc, Bool.or_eq_true, decide_eq_true_eq]
  exact le_total _ _

lemma make_process_info_some (cores : ℚ) (r : RawProc) (p : ProcessInfo)
    (h : make_process_info cores r = some p) :
    p = { name := display_name r, cpu_percent := roundTenths (r.cpu_percent / cores),
          memory_mb := roundTenths (r.rss_bytes / 1024 / 1024), pid := r.pid }
      ∧ py_lower (display_name r) ∉ system_denylist := by
  simp only [make_process_info] at h
  by_cases hd : py_lower (display_name r) ∈ system_denylist
  · rw [if_pos hd] at h
    exact absurd h (by simp)
  · rw [if_neg hd] at h
    exact ⟨(Option.some.inj h).symm, hd⟩

lemma mergeSort_cpu_filter (l : List ProcessInfo) (q : ℚ) :
    (l.mergeSort cpu_desc).filter (fun p => decide (p.cpu_percent = q))
      = l.filter (fun p => decide (p.cpu_percent = q)) := by
  have hall : ∀ a ∈ l.filter (fun p => decide (p.cpu_percent = q)),
      ∀ b ∈ l.filter (fun p => decide (p.cpu_percent = q)), cpu_desc a b = true := by
    intro a ha b hb
    have ha2 := (List.mem_filter.mp ha).2
    have hb2 := (List.mem_filter.mp hb).2
    simp only [decide_eq_true_eq] at ha2 hb2
    simp only [cpu_desc, decide_eq_true_eq, ha2, hb2]
    exact le_refl q
  have hpair := List.pairwise_of_forall_mem_list hall
  have hsub : List.Sublist (l.filter (fun p => decide (p.cpu_percent = q)))
      (l.mergeSort cpu_desc) :=
    List.sublist_mergeSort cpu_desc_trans cpu_desc_total hpair (List.filter_sublist l)
  have hsub2 := List.Sublist.filter (fun p => decide (p.cpu_percent = q)) hsub
  rw [List.filter_eq_self.mpr (fun a ha => (List.mem_filter.mp ha).2)] at hsub2
  have hperm := List.Perm.filter (fun p => decide (p.cpu_percent = q))
    (List.mergeSort_perm l cpu_desc)
  exact (List.Sublist.eq_of_length hsub2 hperm.length_eq.symm).symm

lemma filterMap_filter_eq {α β : Type} (f : α → Option β) (g : α → Bool) (l : List α)
    (h : ∀ x, g x = false → f x = none) :
    (l.filter g).filterMap f = l.filterMap f := by
  induction l with
  | nil => rfl
  | cons a t ih =>
    by_cases hg : g a = true
    · simp [List.filter_cons, hg, List.filterMap_cons, ih]
    · have hfa := h a (by simpa using hg)
      simp [List.filter_cons, hg, List.filterMap_cons, hfa, ih]

lemma any_fatal_filter (g : ProcIterResult → Bool) (hg : g .fatal = true)
    (procs : List ProcIterResult) :
    ((procs.filter g).any fun pr => decide (pr = ProcIterResult.fatal))
      = procs.any fun pr => decide (pr = ProcIterResult.fatal) := by
  induction procs with
  | nil => rfl
  | cons a t ih =>
    cases a with
    | ok r =>
      by_cases hga : g (.ok r) = true
      · simp [List.filter_cons, hga, List.any_cons, ih]
      · simp only [Bool.not_eq_true] at hga
        simp [List.filter_cons, hga, List.any_cons, ih]
    | skip =>
      by_cases hga : g .skip = true
      · simp [List.filter_cons, hga, List.any_cons, ih]
      · simp only [Bool.not_eq_true] at hga
        simp [List.filter_cons, hga, List.any_cons, ih]
    | fatal => simp [List.filter_cons, hg, List.any_cons, ih]

lemma collected_filter_eq (cores : ℚ) (g : ProcIterResult → Bool)
    (procs : List ProcIterResult)
    (h : ∀ r, g (.ok r) = false → make_process_info cores r = none) :
    collected_processes cores (procs.filter g) = collected_processes cores procs := by
  unfold collected_processes
  refine filterMap_filter_eq _ g procs ?_
  intro pr hpr
  cases pr with
  | ok r => exact h r hpr
  | skip => rfl
  | fatal => rfl

lemma get_top_processes_filter_eq (cores : ℚ) (limit : ℕ) (g : ProcIterResult → Bool)
    (procs : List ProcIterResult) (hg : g .fatal = true)
    (h : ∀ r, g (.ok r) = false → make_process_info cores r = none) :
    get_top_processes true cores (procs.filter g) limit
      = get_top_processes true cores procs limit := by
  unfold get_top_processes
  rw [any_fatal_filter g hg, collected_filter_eq cores g procs h]

/-- Input for the C2 counterexample: two processes with equal cpu percent,
collected in pid-descending order. -/
def c2_procs : List ProcIterResult :=
  [.ok ⟨2, "b", 50, 0⟩, .ok ⟨1, "a", 50, 0⟩]

/-- C2 (counterexample): the ranked output keeps equal-cpu entries in
collection order — here pid 2 before pid 1 — so the claimed pid-ascending
tie-break is violated at this concrete input. -/
theorem C2_counterexample :
    ¬ (get_top_processes true 1 c2_procs 10).Pairwise
        (fun a b => a.cpu_percent = b.cpu_percent → a.pid ≤ b.pid) := by
  have h : get_top_processes true 1 c2_procs 10
      = [⟨"b", 50, 0, 2⟩, ⟨"a", 50, 0, 1⟩] := by
    norm_num +decide [get_top_processes, collected_processes, make_process_info, c2_procs,
      system_denylist, py_endswith, py_lower, display_name, roundTenths, roundHalfEvenZ,
      List.mergeSort, cpu_desc, List.filterMap]
  rw [h]
  intro hp
  have h2 := (List.pairwise_cons.mp hp).1 ⟨"a", 50, 0, 1⟩ (by simp)
  have h3 := h2 rfl
  simp at h3

/-- C2 (amended): the ranked output is sorted by cpuPercent descending,
and entries with equal cpuPercent appear in their collection order (Python
sort stability); there is no pid tie-break. -/
theorem C2_sorted_desc_stable (cores : ℚ) (procs : List ProcIterResult) (limit : ℕ) :
    (get_top_processes true cores procs limit).Pairwise
        (fun a b => b.cpu_percent ≤ a.cpu_percent)
    ∧ ∀ q : ℚ, (get_top_processes true cores procs limit).filter
          (fun p => decide (p.cpu_percent = q))
        <+: (collected_processes cores procs).filter (fun p => decide (p.cpu_percent = q)) := by
  by_cases hf : (procs.any fun pr => decide (pr = ProcIterResult.fatal)) = true
  · constructor
    · simp [get_top_processes, hf]
    · intro q
      simp only [get_top_processes, hf, Bool.not_true, if_true, if_false]
      simp
  · have hout : get_top_processes true cores procs limit
        = ((collected_processes cores procs).mergeSort cpu_desc).take limit := by
      simp [get_top_processes, hf]
    constructor
    · rw [hout]
      have hsorted := List.sorted_mergeSort cpu_desc_trans cpu_desc_total
        (collected_processes cores procs)
      have hsorted2 : (((collected_processes cores procs).mergeSort cpu_desc)).Pairwise
          (fun a b => b.cpu_percent ≤ a.cpu_percent) := by
        refine hsorted.imp ?_
        intro a b hab
        simpa [cpu_desc] using hab
      exact List.Pairwise.sublist (List.take_sublist _ _) hsorted2
    · intro q
      rw [hout, ← mergeSort_cpu_filter (collected_processes cores procs) q]
      exact List.IsPrefix.filter _ (List.take_prefix _ _)

/-- The denylist test on a raw process: true iff its display name does not
case-insensitively match the fixed denylist. -/
def keep_not_denylisted : ProcIterResult → Bool
  | .ok r => !decide (py_lower (display_name r) ∈ system_denylist)
  | .skip => true
  | .fatal => true

/-- C6: a process whose normalized name case-insensitively matches the
fixed denylist never appears in the ranked output, and removing all
denylisted raw entries from the input leaves the output — hence also every
total computed from it — unchanged. -/
theorem C6_denylist_excluded (cores : ℚ) (procs : List ProcIterResult) (limit : ℕ) :
    (∀ p ∈ get_top_processes true cores procs limit, py_lower p.name ∉ system_denylist)
    ∧ get_top_processes true cores (procs.filter keep_not_denylisted) limit
        = get_top_processes true cores procs limit := by
  constructor
  · intro p hp
    by_cases hf : (procs.any fun pr => decide (pr = ProcIterResult.fatal)) = true
    · simp [get_top_processes, hf] at hp
    · have hout : get_top_processes true cores procs limit
          = ((collected_processes cores procs).mergeSort cpu_desc).take limit := by
        simp [get_top_processes, hf]
      rw [hout] at hp
      have hp2 : p ∈ (collected_processes cores procs).mergeSort cpu_desc :=
        (List.take_sublist _ _).subset hp
      rw [List.mem_mergeSort] at hp2
      unfold collected_processes at hp2
      rw [List.mem_filterMap] at hp2
      obtain ⟨pr, _, hmk⟩ := hp2
      cases pr with
      | ok r =>
        obtain ⟨hrec, hdeny⟩ := make_process_info_some cores r p hmk
        rw [hrec]
        exact hdeny
      | skip => exact absurd hmk (by simp)
      | fatal => exact absurd hmk (by simp)
  · refine get_top_processes_filter_eq cores limit keep_not_denylisted procs rfl ?_
    intro r hr
    simp only [keep_not_denylisted, Bool.not_eq_false', decide_eq_true_eq] at hr
    simp [make_process_info, hr]

/-- Input for the C6 witness: one ordinary process and one matching the
denylist ("System Idle Process"). -/
def c6_procs : List ProcIterResult :=
  [.ok ⟨2, "b", 50, 0⟩, .ok ⟨1, "System Idle Process", 99, 0⟩]

/-- Witness for C6: at the concrete input, the surviving entry's name is
not denylisted. -/
theorem C6_denylist_excluded_witness :
    py_lower (ProcessInfo.name ⟨"b", 50, 0, 2⟩) ∉ system_denylist :=
  (C6_denylist_excluded 1 c6_procs 10).1 ⟨"b", 50, 0, 2⟩ (by
    have h : get_top_processes true 1 c6_procs 10 = [⟨"b", 50, 0, 2⟩] := by
      norm_num +decide [get_top_processes, collected_processes, make_process_info, c6_procs,
        system_denylist, py_endswith, py_lower, display_name, roundTenths, roundHalfEvenZ,
        List.mergeSort, cpu_desc, List.filterMap]
    rw [h]
    simp)

/-- C7: the per-process cpu percent reported in the ranked output is the
raw psutil percent divided by the logical core count (then rounded to one
decimal place), matching per-core normalisation. -/
theorem C7_cpu_normalized_per_core (cores : ℚ) (r : RawProc) (p : ProcessInfo)
    (h : make_process_info cores r = some p) :
    p.cpu_percent = roundTenths (r.cpu_percent / cores) := by
  obtain ⟨hrec, -⟩ := make_process_info_some cores r p h
  rw [hrec]

/-- Witness for C7: a process at 100% of one core on an 8-core host is
reported as 12.5. -/
theorem C7_cpu_normalized_per_core_witness :
    (⟨"x", 25 / 2, 0, 1⟩ : ProcessInfo).cpu_percent = roundTenths (100 / 8)
    ∧ roundTenths (100 / 8) = 25 / 2 := by
  constructor
  · exact C7_cpu_normalized_per_core 8 ⟨1, "x", 100, 0⟩ ⟨"x", 25 / 2, 0, 1⟩ (by
      norm_num +decide [make_process_info, system_denylist, py_endswith, py_lower,
        display_name, roundTenths, roundHalfEvenZ])
  · norm_num [roundTenths, roundHalfEvenZ]

/-- C10: the process-ranking operation never propagates an exception:
without psutil it returns `[]`; when any collection-time error other than
the three skipped process conditions occurs, the outer handler returns
`[]`; and skipped processes (vanished / access denied / zombie) are simply
dropped, leaving the result unchanged. -/
theorem C10_no_exception_propagation (cores : ℚ) (procs : List ProcIterResult) (limit : ℕ) :
    get_top_processes false cores procs limit = []
    ∧ ((procs.any fun pr => decide (pr = ProcIterResult.fatal)) = true →
        get_top_processes true cores procs limit = [])
    ∧ get_top_processes true cores
          (procs.filter fun pr => !decide (pr = ProcIterResult.skip)) limit
        = get_top_processes true cores procs limit := by
  refine ⟨by simp [get_top_processes], fun h => by simp [get_top_processes, h], ?_⟩
  refine get_top_processes_filter_eq cores limit _ procs (by simp) ?_
  intro r hr
  simp at hr

/-- Witness for C10: a collection-time error yields the empty list. -/
theorem C10_no_exception_propagation_witness :
    get_top_processes true 1 [ProcIterResult.fatal] 10 = [] :=
  (C10_no_exception_propagation 1 [ProcIterResult.fatal] 10).2.1 (by simp)

/-- Input for the C1 counterexample: two ordinary processes, ranked with
`limit = 1`. -/
def c1_procs : List ProcIterResult :=
  [.ok ⟨1, "a", 200, 1048576⟩, .ok ⟨2, "b", 100, 1048576⟩]

/-- C1 (counterexample): with two collected processes and `limit = 1`, the
totals printed by `display_processes` are computed over the already
truncated list returned by `get_top_processes`, not over the entire
filtered set: 200 is reported, the filtered-set sum is 300. -/
theorem C1_counterexample :
    (display_processes (get_top_processes true 1 c1_procs 1)).totals
      ≠ some (((collected_processes 1 c1_procs).map ProcessInfo.cpu_percent).sum,
          ((collected_processes 1 c1_procs).map ProcessInfo.memory_mb).sum) := by
  have h1 : (display_processes (get_top_processes true 1 c1_procs 1)).totals
      = some (200, 1) := by
    norm_num +decide [display_processes, get_top_processes, collected_processes,
      make_process_info, c1_procs, system_denylist, py_endswith, py_lower, display_name,
      roundTenths, roundHalfEvenZ, List.mergeSort, cpu_desc, List.filterMap]
  have h2 : ((collected_processes 1 c1_procs).map ProcessInfo.cpu_percent).sum = 300 := by
    norm_num +decide [collected_processes, make_process_info, c1_procs, system_denylist,
      py_endswith, py_lower, display_name, roundTenths, roundHalfEvenZ, List.filterMap]
  rw [h1, h2]
  intro hcon
  rw [Option.some.injEq, Prod.mk.injEq] at hcon
  exact absurd hcon.1 (by norm_num)

/-- C1 (amended): `top` has length `min(limit, |filtered set|)`, and the
reported totals — which are computed after truncation — agree with the
sums over the entire filtered set exactly in the case where the filtered
set fits within the limit (assuming it is nonempty, so the totals line is
printed at all, and no collection error occurred). -/
theorem C1_totals_full_set_when_fits (cores : ℚ) (procs : List ProcIterResult) (limit : ℕ)
    (hnf : (procs.any fun pr => decide (pr = ProcIterResult.fatal)) = false)
    (hne : collected_processes cores procs ≠ [])
    (hlen : (collected_processes cores procs).length ≤ limit) :
    (get_top_processes true cores procs limit).length
        = min limit (collected_processes cores procs).length
    ∧ (display_processes (get_top_processes true cores procs limit)).totals
        = some (((collected_processes cores procs).map ProcessInfo.cpu_percent).sum,
            ((collected_processes cores procs).map ProcessInfo.memory_mb).sum) := by
  have hout : get_top_processes true cores procs limit
      = ((collected_processes cores procs).mergeSort cpu_desc).take limit := by
    simp [get_top_processes, hnf]
  have hfull : ((collected_processes cores procs).mergeSort cpu_desc).take limit
      = (collected_processes cores procs).mergeSort cpu_desc :=
    List.take_of_length_le (by rw [List.length_mergeSort]; exact hlen)
  constructor
  · rw [hout, List.length_take, List.length_mergeSort]
  · rw [hout, hfull]
    simp only [display_processes]
    have hperm : List.Perm
        (((collected_processes cores procs).mergeSort cpu_desc).mergeSort cpu_desc)
        (collected_processes cores procs) :=
      (List.mergeSort_perm _ _).trans (List.mergeSort_perm _ _)
    have hnil : ((collected_processes cores procs).mergeSort cpu_desc).mergeSort cpu_desc
        ≠ [] := by
      intro h0
      apply hne
      have hl := hperm.length_eq
      rw [h0] at hl
      exact List.eq_nil_of_length_eq_zero hl.symm
    have htop : (((((collected_processes cores procs).mergeSort cpu_desc).mergeSort
        cpu_desc)).take 10).isEmpty = false := by
      simp [List.isEmpty_iff, List.take_eq_nil_iff, hnil]
    rw [htop]
    simp only [Bool.false_eq_true, if_false]
    rw [(hperm.map ProcessInfo.cpu_percent).sum_eq, (hperm.map ProcessInfo.memory_mb).sum_eq]

/-- Input for the C1 witness: a single process, well within the limit. -/
def c1w_procs : List ProcIterResult := [.ok ⟨1, "a", 100, 0⟩]

/-- Witness for C1 (amended) at a concrete input that fits the limit. -/
theorem C1_totals_full_set_when_fits_witness :
    (get_top_processes true 1 c1w_procs 10).length
        = min 10 (collected_processes 1 c1w_procs).length
    ∧ (display_processes (get_top_processes true 1 c1w_procs 10)).totals
        = some (((collected_processes 1 c1w_procs).map ProcessInfo.cpu_percent).sum,
            ((collected_processes 1 c1w_procs).map ProcessInfo.memory_mb).sum) :=
  C1_totals_full_set_when_fits 1 c1w_procs 10 (by simp [c1w_procs]) (by
      have h : collected_processes 1 c1w_procs = [⟨"a", 100, 0, 1⟩] := by
        norm_num +decide [collected_processes, make_process_info, c1w_procs, system_denylist,
          py_endswith, py_lower, display_name, roundTenths, roundHalfEvenZ, List.filterMap]
      rw [h]
      simp) (by
      have h : collected_processes 1 c1w_procs = [⟨"a", 100, 0, 1⟩] := by
        norm_num +decide [collected_processes, make_process_info, c1w_procs, system_denylist,
          py_endswith, py_lower, display_name, roundTenths, roundHalfEvenZ, List.filterMap]
      rw [h]
      simp)

/-- A value stored in the `info` dict built by `get_cpu_info`. -/
inductive CpuVal where
  | num (q : ℚ)
  | str (s : String)
  | natOpt (n : Option ℕ)
deriving Repr, DecidableEq

/-- The facts the psutil branch of `get_cpu_info` reads when none of its
calls raise: overall percent, `cpu_count()`, `cpu_count(logical=False)`,
`cpu_freq()` and the optional first temperature sensor reading. -/
structure PsutilCpu where
  cpu_percent : ℚ
  logical_cores : Option ℕ
  physical_cores : Option ℕ
  freq : Option ℚ
  temperature : Option ℚ
deriving Repr, DecidableEq

/-- Python `a or b` on optional core counts: `None` and `0` are falsy. -/
def py_or_cores (a b : Option ℕ) : Option ℕ :=
  match a with
  | none => b
  | some 0 => b
  | some k => some k

/-- The frequency string of `get_cpu_info`: on Windows from the WMI
current/max clock speeds, elsewhere from `psutil.cpu_freq()`; any failure
or a `None` frequency yields `"Unknown"`. -/
def cpu_freq_str (system : String) (wmiFreq : Option (ℚ × ℤ)) (psFreq : Option ℚ) :
    String :=
  if system == "Windows" then
    match wmiFreq with
    | some (cur, mx) => renderZeroDecimal cur ++ " MHz (Max: " ++ toString mx ++ " MHz)"
    | none => "Unknown"
  else
    match psFreq with
    | some f => renderZeroDecimal f ++ " MHz"
    | none => "Unknown"

/-- The fallback dict of `get_cpu_info` (source lines 75–80). Its keys are
`usage`, `cores` and `frequency`. -/
def fallback_cpu_info (osCores : Option ℕ) : List (String × CpuVal) :=
  [("usage", CpuVal.str "Unknown"), ("cores", CpuVal.natOpt osCores),
    ("frequency", CpuVal.str "Unknown")]

/-- `SystemMonitor.get_cpu_info`, as the association list (in the Python
dict's insertion order) it returns: the psutil branch when psutil imported
and none of its calls raised (`probe = some p`), otherwise the fallback.
`osCores` is `os.cpu_count()`. -/
def get_cpu_info (hasPsutil : Bool) (system : String) (probe : Option PsutilCpu)
    (wmiFreq : Option (ℚ × ℤ)) (osCores : Option ℕ) : List (String × CpuVal) :=
  if hasPsutil then
    match probe with
    | some p =>
      let base := [("usage", CpuVal.num p.cpu_percent),
        ("logical_cores", CpuVal.natOpt p.logical_cores),
        ("physical_cores", CpuVal.natOpt (py_or_cores p.physical_cores p.logical_cores)),
        ("frequency", CpuVal.str (cpu_freq_str system wmiFreq p.freq))]
      if system == "Windows" then
        match p.temperature with
        | some t => base ++ [("temperature", CpuVal.str (renderZeroDecimal t ++ "°C"))]
        | none => base
      else base
    | none => fallback_cpu_info osCores
  else fallback_cpu_info osCores

/-- Python dict lookup `d[k]` on the association list; `none` models a
`KeyError` being raised. -/
def dict_get (d : List (String × CpuVal)) (k : String) : Option CpuVal :=
  (d.find? fun kv => kv.1 == k).map fun kv => kv.2

/-- `SystemMonitor.display_cpu_info`: its f-strings read `usage`,
`physical_cores`, `logical_cores`, optionally `temperature` (guarded by an
`in` test, so never a `KeyError`), and `frequency`. Returns the values it
printed, or `none` when a required key is missing (`KeyError` escapes). -/
def display_cpu_info (d : List (String × CpuVal)) :
    Option (CpuVal × CpuVal × CpuVal × Option CpuVal × CpuVal) :=
  match dict_get d "usage", dict_get d "physical_cores", dict_get d "logical_cores",
      dict_get d "frequency" with
  | some u, some pc, some lc, some f => some (u, pc, lc, dict_get d "temperature", f)
  | _, _, _, _ => none

/-- C3: contrary to the claim, the capture-and-display flow raises on the
fallback path: the fallback CPU dict carries the key `cores`, but
`display_cpu_info` reads `physical_cores` and `logical_cores`, so either
psutil being absent or its probing raising makes the display raise
`KeyError` (modelled as `none`); the fields the consumer reads are absent.
-/
theorem C3_fallback_cpu_display_raises (system : String) (probe : Option PsutilCpu)
    (wmiFreq : Option (ℚ × ℤ)) (osCores : Option ℕ) :
    display_cpu_info (get_cpu_info false system probe wmiFreq osCores) = none
    ∧ display_cpu_info (get_cpu_info true system none wmiFreq osCores) = none
    ∧ dict_get (get_cpu_info false system probe wmiFreq osCores) "physical_cores" = none
    ∧ dict_get (get_cpu_info false system probe wmiFreq osCores) "cores"
        = some (CpuVal.natOpt osCores) := by
  refine ⟨rfl, rfl, rfl, rfl⟩

/-- Result of a successful `disk_usage` query. -/
structure DiskUsage where
  total : ℚ
  used : ℚ
  free : ℚ
deriving Repr, DecidableEq

/-- One entry of `psutil.disk_partitions()`: device, mountpoint, and the
outcome of `psutil.disk_usage(mountpoint)` (`none` when that call raises).
-/
structure Partition where
  device : String
  mountpoint : String
  usage : Option DiskUsage
deriving Repr, DecidableEq

/-- One dict appended to `disk_info`. -/
structure DiskEntry where
  device : String
  mountpoint : String
  total : String
  used : String
  free : String
  percent : ℚ
deriving Repr, DecidableEq

/-- Loop body of `get_disk_info` for one partition: a failing `disk_usage`
— or the `ZeroDivisionError` of the percent computation when `total == 0`
— is caught by the bare `except` and skips just this mount (`continue`). -/
def disk_entry (p : Partition) : Option DiskEntry :=
  match p.usage with
  | none => none
  | some u =>
    if u.total = 0 then none
    else some { device := p.device, mountpoint := p.mountpoint,
                total := format_bytes u.total, used := format_bytes u.used,
                free := format_bytes u.free, percent := u.used / u.total * 100 }

/-- `SystemMonitor.get_disk_info`: with psutil, query each partition
independently (`partitions = none` models `disk_partitions()` itself
raising); if nothing was collected, fall back — on Windows only — to
`shutil.disk_usage` of the current directory (`cwdUsage = none` models
that call or `os.path.abspath` raising; a zero total again raises into the
enclosing `except` and nothing is appended). -/
def get_disk_info (hasPsutil : Bool) (system : String)
    (partitions : Option (List Partition)) (cwd : String)
    (cwdUsage : Option DiskUsage) : List DiskEntry :=
  let disk_info :=
    if hasPsutil then
      match partitions with
      | some ps => ps.filterMap disk_entry
      | none => []
    else []
  if disk_info.isEmpty then
    if system == "Windows" then
      match cwdUsage with
      | some u =>
        if u.total = 0 then []
        else [{ device := "C:", mountpoint := cwd, total := format_bytes u.total,
                used := format_bytes u.used, free := format_bytes u.free,
                percent := u.used / u.total * 100 }]
      | none => []
    else []
  else disk_info

lemma length_filterMap_isSome {α β : Type} (f : α → Option β) (l : List α) :
    (l.filterMap f).length = (l.filter fun a => (f a).isSome).length := by
  induction l with
  | nil => rfl
  | cons a t ih =>
    cases hfa : f a <;> simp [List.filterMap_cons, List.filter_cons, hfa, ih]

/-- C8: disk enumeration is per-mount fault-isolated: volumes whose usage
query fails are omitted (the result counts exactly the successfully probed
mounts), and every successfully probed mount's entry appears unchanged in
the result. (The hypothesis that at least one mount succeeds keeps the
Windows-only cwd fallback, which fires on an empty collection, out of the
picture.) -/
theorem C8_disk_fault_isolated (system : String) (cwd : String)
    (cwdUsage : Option DiskUsage) (ps : List Partition)
    (h : ∃ p ∈ ps, (disk_entry p).isSome) :
    (get_disk_info true system (some ps) cwd cwdUsage).length
        = (ps.filter fun p => (disk_entry p).isSome).length
    ∧ ∀ p ∈ ps, ∀ e, disk_entry p = some e →
        e ∈ get_disk_info true system (some ps) cwd cwdUsage := by
  have hne : ps.filterMap disk_entry ≠ [] := by
    obtain ⟨p, hp, hs⟩ := h
    obtain ⟨e, he⟩ := Option.isSome_iff_exists.mp hs
    intro h0
    have hmem : e ∈ ps.filterMap disk_entry := List.mem_filterMap.mpr ⟨p, hp, he⟩
    rw [h0] at hmem
    simp at hmem
  have hempty : (ps.filterMap disk_entry).isEmpty = false := by
    simp [List.isEmpty_iff, hne]
  have hout : get_disk_info true system (some ps) cwd cwdUsage
      = ps.filterMap disk_entry := by
    simp [get_disk_info, hempty]
  constructor
  · rw [hout]
    exact length_filterMap_isSome disk_entry ps
  · intro p hp e he
    rw [hout]
    exact List.mem_filterMap.mpr ⟨p, hp, he⟩

/-- The three mounts of the C8 witness, the middle one failing its usage
query. -/
def c8_parts : List Partition :=
  [⟨"dev1", "m1", some ⟨100, 50, 50⟩⟩, ⟨"dev2", "m2", none⟩,
    ⟨"dev3", "m3", some ⟨200, 50, 150⟩⟩]

/-- Witness for C8: three mounts, one failing, on a non-Windows host. -/
theorem C8_disk_fault_isolated_witness :
    (get_disk_info true "Linux" (some c8_parts) "/" none).length
        = (c8_parts.filter fun p => (disk_entry p).isSome).length
    ∧ ∀ p ∈ c8_parts, ∀ e, disk_entry p = some e →
        e ∈ get_disk_info true "Linux" (some c8_parts) "/" none :=
  C8_disk_fault_isolated "Linux" "/" none c8_parts
    ⟨⟨"dev1", "m1", some ⟨100, 50, 50⟩⟩, by simp [c8_parts], by
      norm_num [disk_entry]⟩

/-- C9 (counterexample): on a non-Windows host without the probing
facility, the disk probe returns the empty sequence — no current-directory
volume entry — even though that volume's usage was obtainable; the claimed
fallback fact set is not produced on every host. -/
theorem C9_counterexample :
    get_disk_info false "Linux" none "/work" (some ⟨1000, 400, 600⟩) = [] := rfl

/-- C9 (amended): without the probing facility, the CPU probe still
returns the OS logical core count (under the key `cores`), but the
current-directory volume's total/used/free is produced only on Windows
hosts; on other hosts the disk fallback yields an empty sequence. -/
theorem C9_fallback_reduced_facts (system : String) (probe : Option PsutilCpu)
    (wmiFreq : Option (ℚ × ℤ)) (osCores : Option ℕ)
    (partitions : Option (List Partition)) (cwd : String) (u : DiskUsage)
    (hu : u.total ≠ 0) :
    dict_get (get_cpu_info false system probe wmiFreq osCores) "cores"
        = some (CpuVal.natOpt osCores)
    ∧ get_disk_info false "Windows" partitions cwd (some u)
        = [{ device := "C:", mountpoint := cwd, total := format_bytes u.total,
             used := format_bytes u.used, free := format_bytes u.free,
             percent := u.used / u.total * 100 }]
    ∧ get_disk_info false "Linux" partitions cwd (some u) = [] := by
  refine ⟨rfl, ?_, rfl⟩
  simp [get_disk_info, hu]

/-- Witness for C9 (amended) at concrete fallback inputs. -/
theorem C9_fallback_reduced_facts_witness :
    dict_get (get_cpu_info false "Windows" none none (some 8)) "cores"
        = some (CpuVal.natOpt (some 8))
    ∧ get_disk_info false "Windows" none "/work" (some ⟨1000, 400, 600⟩)
        = [{ device := "C:", mountpoint := "/work", total := format_bytes 1000,
             used := format_bytes 400, free := format_bytes 600,
             percent := 400 / 1000 * 100 }]
    ∧ get_disk_info false "Linux" none "/work" (some ⟨1000, 400, 600⟩) = [] :=
  C9_fallback_reduced_facts "Windows" none none (some 8) none "/work"
    ⟨1000, 400, 600⟩ (by norm_num)

end SystemMonitor
